import Mathlib

/-!
Verification development for the `rBUM` repository's header date-stamper
(`Scripts/update_file_dates.py`).  File contents are modelled as `List Char`;
the Python regular expressions used by the script are compiled by hand into
deterministic scanners (each regex in the script is forced: `.` never matches
a newline, so every lazy quantifier has exactly one possible extent).
The current date (`CURRENT_DATE`, produced by `strftime` at run time) is a
parameter `d` of every definition that the script interpolates it into.
-/

/-- The constant `CREATION_DATE = "6 February 2025"` from the script. -/
def CREATION_DATE : List Char := "6 February 2025".data

/-- The feature flag `COUNTER_ENABLED = False` from the script. -/
def COUNTER_ENABLED : Bool := false

/-- Python `str.startswith` / regex literal matching: strip a literal
leading pattern, returning the remainder on success. -/
def stripPfx : List Char → List Char → Option (List Char)
  | [], s => some s
  | _ :: _, [] => none
  | p :: ps, c :: cs => if p = c then stripPfx ps cs else none

/-- Occurrence of a literal pattern anywhere in a string
(Python `re.search` on a literal / the `in` operator). -/
def containsSeq (pat : List Char) : List Char → Bool
  | [] => (stripPfx pat []).isSome
  | c :: cs => (stripPfx pat (c :: cs)).isSome || containsSeq pat cs

/-- Split at the first newline: `some (line, rest)` where `line` holds no
newline and the newline itself is consumed; `none` when the string has no
newline.  This is exactly the extent of the forced lazy regex `.*?\n`
(Python `.` does not match a newline without `DOTALL`). -/
def splitAtNl : List Char → Option (List Char × List Char)
  | [] => none
  | c :: cs =>
    if c = '\n' then some ([], cs)
    else
      match splitAtNl cs with
      | some (l, r) => some (c :: l, r)
      | none => none

/-- Match of the script's `header_pattern = r"//\n//.*?\n//.*?\n//\n"`
anchored at the given position: four lines reading `//`, `//…`, `//…`, `//`.
Returns the remainder after the match.  The match extent is unique because
`.` cannot cross the line boundaries. -/
def matchHeaderAt (s : List Char) : Option (List Char) :=
  match s with
  | '/' :: '/' :: '\n' :: '/' :: '/' :: s1 =>
    match splitAtNl s1 with
    | none => none
    | some (_, r1) =>
      match r1 with
      | '/' :: '/' :: s2 =>
        match splitAtNl s2 with
        | none => none
        | some (_, r2) =>
          match r2 with
          | '/' :: '/' :: '\n' :: r3 => some r3
          | _ => none
      | _ => none
  | _ => none

/-- Fuelled worker for `re.sub(header_pattern, repl, s)`: replace every
non-overlapping occurrence of the header pattern, scanning left to right.
Fuel bounded by `s.length` always suffices since every step consumes at
least one character. -/
def subAllF (repl : List Char) : Nat → List Char → List Char
  | _, [] => []
  | 0, s => s
  | n + 1, s =>
    match matchHeaderAt s with
    | some r => repl ++ subAllF repl n r
    | none =>
      match s with
      | [] => []
      | c :: cs => c :: subAllF repl n cs

/-- `re.sub(header_pattern, repl, s)` — global replacement of the four-line
header pattern. -/
def subAll (repl s : List Char) : List Char :=
  subAllF repl s.length s

/-- Does the header pattern match anywhere in `s`? -/
def hasHeaderMatch : List Char → Bool
  | [] => (matchHeaderAt []).isSome
  | c :: cs => (matchHeaderAt (c :: cs)).isSome || hasHeaderMatch cs

/-- Python `int` of a digit run, accumulator form. -/
def digitsToNat (acc : Nat) : List Char → Nat
  | [] => acc
  | c :: cs => digitsToNat (acc * 10 + (c.toNat - '0'.toNat)) cs

/-- Maximal digit prefix (the greedy `\d+`), with the remainder. -/
def takeDigits : List Char → List Char × List Char
  | [] => ([], [])
  | c :: cs =>
    if c.isDigit then
      let (ds, r) := takeDigits cs
      (c :: ds, r)
    else ([], c :: cs)

/-- `re.search(r"Update count: (\d+)", s)`: leftmost position where the
literal `"Update count: "` is followed by at least one digit; the captured
group is the maximal digit run there. -/
def searchUpdateCountGo : List Char → Option Nat
  | [] => none
  | c :: cs =>
    match stripPfx ("Update count: ".data) (c :: cs) with
    | some t =>
      match t with
      | dch :: _ =>
        if dch.isDigit then some (digitsToNat 0 (takeDigits t).1)
        else searchUpdateCountGo cs
      | [] => searchUpdateCountGo cs
    | none => searchUpdateCountGo cs

/-- `get_update_count(content)` from the script: `None` when the counter
feature flag is disabled; otherwise the parsed counter plus one, or 1 when
no counter marker exists. -/
def get_update_count (content : List Char) : Option Nat :=
  if COUNTER_ENABLED then
    match searchUpdateCountGo content with
    | some n => some (n + 1)
    | none => some 1
  else none

/-- Rendering of an `Option Nat` the way a Python f-string renders the value
returned by `get_update_count` (an `int`, or `None`). -/
def formatPyCount : Option Nat → List Char
  | some n => (Nat.repr n).data
  | none => "None".data

/-- The script's `counter_str` for source files:
`f"//  Update count: {get_update_count(content)}\n" if COUNTER_ENABLED else ""`. -/
def swift_counter_str (content : List Char) : List Char :=
  if COUNTER_ENABLED then
    "//  Update count: ".data ++ formatPyCount (get_update_count content) ++ "\n".data
  else []

/-- The `new_header` f-string of `update_swift_file`, with the run's current
date `d` and the file name `fn` interpolated. -/
def renderSwiftHeader (d fn content : List Char) : List Char :=
  "//\n//  ".data ++ fn ++ "\n//  rBUM\n//\n//  First created: ".data ++
    CREATION_DATE ++ "\n//  Last updated: ".data ++ d ++ "\n".data ++
    swift_counter_str content ++ "//\n".data

/-- `update_swift_file(content, file_path)`: if the four-line header pattern
matches at the start of the content (`re.match`), globally substitute the
pattern by the new header (`re.sub`); otherwise prepend the new header. -/
def update_swift_file (d fn content : List Char) : List Char :=
  match matchHeaderAt content with
  | some _ => subAll (renderSwiftHeader d fn content) content
  | none => renderSwiftHeader d fn content ++ content

/-- Python whitespace for `str.strip()` / the regex class `\s`
(ASCII fragment; the script's inputs are ASCII text). -/
def pyIsSpace (c : Char) : Bool :=
  c = ' ' || c = '\t' || c = '\n' || c = '\r' || c = '\x0b' || c = '\x0c'

/-- `not line.strip()`: the line is empty or all whitespace. -/
def isBlankLine (l : List Char) : Bool :=
  l.all pyIsSpace

/-- Python `content.split('\n')`. -/
def splitNl : List Char → List (List Char)
  | [] => [[]]
  | c :: cs =>
    if c = '\n' then [] :: splitNl cs
    else
      match splitNl cs with
      | l :: ls => (c :: l) :: ls
      | [] => [[c]]

/-- Python `'\n'.join(lines)`. -/
def joinNl : List (List Char) → List Char
  | [] => []
  | [l] => l
  | l :: ls => l ++ '\n' :: joinNl ls

/-- The title scan of `update_markdown_file`: `title_end` is one past the
index of the first line starting with `"# "`, or 0 when no such line
exists. -/
def findTitleEndGo : Nat → List (List Char) → Nat
  | _, [] => 0
  | i, l :: ls =>
    if ("# ".data).isPrefixOf l then i + 1 else findTitleEndGo (i + 1) ls

/-- The description scan of `update_markdown_file`, started at index
`title_end` with accumulator `desc_end = title_end`: a non-blank line not
starting with `"First created:"` extends `desc_end` past itself, a blank
line is passed over, and a `"First created:"` line stops the scan. -/
def findDescEndGo : Nat → Nat → List (List Char) → Nat
  | _, de, [] => de
  | i, de, l :: ls =>
    if !isBlankLine l && !(("First created:".data).isPrefixOf l) then
      findDescEndGo (i + 1) (i + 1) ls
    else if isBlankLine l then findDescEndGo (i + 1) de ls
    else de

/-- The script's `counter_str` for documentation files:
`f"Update count: {get_update_count(content)}\n" if COUNTER_ENABLED else ""`. -/
def md_counter_str (content : List Char) : List Char :=
  if COUNTER_ENABLED then
    "Update count: ".data ++ formatPyCount (get_update_count content) ++ "\n".data
  else []

/-- The `date_section` f-string of `update_markdown_file`. -/
def dateSection (d content : List Char) : List Char :=
  "First created: ".data ++ CREATION_DATE ++ "\nLast updated: ".data ++ d ++
    "\n".data ++ md_counter_str content ++ "\n".data

/-- Match, anchored at the given position, of the removal regex
`r"First created:.*?\n.*?Last updated:.*?\n(Update count:.*?\n)?\n?"`:
a `First created:` line, a following newline-terminated line containing
`Last updated:`, optionally a newline-terminated `Update count:` line, and
optionally one further newline.  Returns the remainder after the match.
All lazy extents are forced since `.` cannot cross a newline. -/
def matchRemovalAt (s : List Char) : Option (List Char) :=
  match stripPfx ("First created:".data) s with
  | none => none
  | some s1 =>
    match splitAtNl s1 with
    | none => none
    | some (_, r1) =>
      match splitAtNl r1 with
      | none => none
      | some (line2, r2) =>
        if containsSeq ("Last updated:".data) line2 then
          let r3 :=
            match stripPfx ("Update count:".data) r2 with
            | some t =>
              match splitAtNl t with
              | some (_, r) => r
              | none => r2
            | none => r2
          some (match r3 with
            | '\n' :: t => t
            | other => other)
        else none

/-- Fuelled worker for the global deletion
`re.sub(removal_pattern, "", content)`. -/
def removeDatesF : Nat → List Char → List Char
  | _, [] => []
  | 0, s => s
  | n + 1, s =>
    match matchRemovalAt s with
    | some r => removeDatesF n r
    | none =>
      match s with
      | [] => []
      | c :: cs => c :: removeDatesF n cs

/-- `re.sub(r"First created:...", "", content)` — delete every occurrence of
the creation/update(/counter) block. -/
def removeDates (s : List Char) : List Char :=
  removeDatesF s.length s

/-- Start-of-match test for `re.search(r"\n##\s+", s)` at one position. -/
def isSectStart : List Char → Bool
  | '\n' :: '#' :: '#' :: c :: _ => pyIsSpace c
  | _ => false

/-- Leftmost match position of `r"\n##\s+"` (`match.start()`). -/
def searchSectGo : Nat → List Char → Option Nat
  | _, [] => none
  | i, c :: cs =>
    if isSectStart (c :: cs) then some i else searchSectGo (i + 1) cs

/-- `re.search(r"\n##\s+", s)`, returning the match start index. -/
def searchSect (s : List Char) : Option Nat :=
  searchSectGo 0 s

/-- `update_markdown_file(content, file_path)`: retain the title line and
the scanned description block, delete existing date blocks anywhere, and
insert a fresh date section before the first `\n##\s+` occurrence found
after the retained block, or directly after the retained block when no such
occurrence exists.  (`file_path` is unused by the Python function.) -/
def update_markdown_file (d fn content : List Char) : List Char :=
  let lines := splitNl content
  let titleEnd := findTitleEndGo 0 lines
  let descEnd := findDescEndGo titleEnd titleEnd (lines.drop titleEnd)
  let header0 := joinNl (lines.take descEnd)
  let header := if header0 = [] then ([] : List Char) else header0 ++ "\n\n".data
  let ds := dateSection d content
  let c2 := removeDates content
  let _ := fn
  match searchSect (c2.drop header.length) with
  | some st => c2.take (header.length + st) ++ ds ++ c2.drop (header.length + st)
  | none => header ++ ds ++ c2.drop header.length

/-- Index of the last occurrence of `c` (Python `str.rfind`). -/
def lastIdxOfGo (c : Char) : Nat → Option Nat → List Char → Option Nat
  | _, best, [] => best
  | i, best, x :: xs => lastIdxOfGo c (i + 1) (if x = c then some i else best) xs

/-- `pathlib.PurePath.suffix` of a file name: the substring from the last
dot, provided that dot is neither the first nor the last character;
otherwise empty. -/
def path_suffix (name : List Char) : List Char :=
  match lastIdxOfGo '.' 0 none name with
  | some i => if 0 < i ∧ i + 1 < name.length then name.drop i else []
  | none => []

/-- A file visible to the run: its path components (the last one is the
file name), its current content, and whether reading or writing it raises
an I/O error (missing file, permission or encoding failure). -/
structure PyFile where
  parts : List (List Char)
  content : List Char
  readFails : Bool
  writeFails : Bool
deriving DecidableEq

/-- `file_path.name`: the final path component. -/
def fileName (f : PyFile) : List Char :=
  match f.parts.getLast? with
  | some n => n
  | none => []

/-- `file_path.suffix`. -/
def fileSuffix (f : PyFile) : List Char :=
  path_suffix (fileName f)

/-- `process_file(file_path)`: read the file (a read failure raises),
dispatch on the suffix (`.swift` / `.md`, anything else returns with the
file untouched and no output), and write back only when the rendered
content differs, emitting an `Updated <path>` notice; a write failure
raises.  The result pairs the file's final state with the optional notice. -/
def process_file (d : List Char) (f : PyFile) :
    Except Unit (PyFile × Option (List (List Char))) :=
  if f.readFails then .error () else
  if fileSuffix f = ".swift".data then
    let nc := update_swift_file d (fileName f) f.content
    if nc ≠ f.content then
      if f.writeFails then .error ()
      else .ok ({ f with content := nc }, some f.parts)
    else .ok (f, none)
  else if fileSuffix f = ".md".data then
    let nc := update_markdown_file d (fileName f) f.content
    if nc ≠ f.content then
      if f.writeFails then .error ()
      else .ok ({ f with content := nc }, some f.parts)
    else .ok (f, none)
  else .ok (f, none)

/-- One path component triggers the skip in `main`:
`part.startswith('.') or part in ['build', 'Pods', 'Carthage']`. -/
def partExcluded (p : List Char) : Bool :=
  (match p with
   | '.' :: _ => true
   | _ => false) ||
  p = "build".data || p = "Pods".data || p = "Carthage".data

/-- The skip condition of `main`: some component of the path is hidden or
a build/vendor directory. -/
def pathExcluded (parts : List (List Char)) : Bool :=
  parts.any partExcluded

/-- Result of a run: final file states, the paths handed to
`process_file` (and hence opened), the emitted notices, and whether the
run aborted on an uncaught I/O error. -/
structure RunResult where
  files : List PyFile
  opened : List (List (List Char))
  notices : List (List (List Char))
  aborted : Bool
deriving DecidableEq

/-- The sequential loop of `main` over an enumeration of files: excluded
paths are skipped before `process_file` is invoked; an error from
`process_file` propagates uncaught, terminating the run with the failing
file and every later file untouched. -/
def runStamper (d : List Char) : List PyFile → RunResult
  | [] => ⟨[], [], [], false⟩
  | f :: rest =>
    if pathExcluded f.parts then
      let r := runStamper d rest
      ⟨f :: r.files, r.opened, r.notices, r.aborted⟩
    else
      match process_file d f with
      | .error _ => ⟨f :: rest, [f.parts], [], true⟩
      | .ok (g, n) =>
        let r := runStamper d rest
        ⟨g :: r.files, f.parts :: r.opened,
          (match n with
           | some p => p :: r.notices
           | none => r.notices), r.aborted⟩

/-- `rglob(f"*{ext}")` membership: the file name ends with the extension. -/
def globMatches (ext : List Char) (f : PyFile) : Bool :=
  ext.isSuffixOf (fileName f)

/-- The enumeration order of `main`: all `*.swift` files, then all `*.md`
files, in tree order. -/
def mainOrder (tree : List PyFile) : List PyFile :=
  tree.filter (globMatches (".swift".data)) ++ tree.filter (globMatches (".md".data))

/-- `main()` applied to a project tree. -/
def mainRun (d : List Char) (tree : List PyFile) : RunResult :=
  runStamper d (mainOrder tree)

/-- The content `process_file` computes for a file: the appropriate
renderer's output for the two tracked extensions, the original content
otherwise. -/
def newContentFor (d : List Char) (f : PyFile) : List Char :=
  if fileSuffix f = ".swift".data then update_swift_file d (fileName f) f.content
  else if fileSuffix f = ".md".data then update_markdown_file d (fileName f) f.content
  else f.content

/-- Does `process_file` raise on this file: the read fails, or a write is
needed (rendered content differs) and the write fails. -/
def fileFails (d : List Char) (f : PyFile) : Bool :=
  f.readFails || (if newContentFor d f = f.content then false else f.writeFails)

/-- The per-file effect of an error-free pass of the loop body: skipped
files are untouched, surviving files carry the rendered content. -/
def procOne (d : List Char) (f : PyFile) : PyFile :=
  if pathExcluded f.parts then f else { f with content := newContentFor d f }

/-- A representative run-time current date (`CURRENT_DATE` is produced by
`strftime("%-d %B %Y")`, e.g. "6 February 2025"). -/
def sampleDate : List Char := "7 October 2025".data

/-- A representative source file name. -/
def sampleName : List Char := "Foo.swift".data

/-- A source file carrying the plain four-line Xcode header and a body. -/
def c1input : List Char := "//\n//  Foo.swift\n//  rBUM\n//\nbody\n".data

/-- A source file whose body itself contains a second occurrence of the
four-line header pattern. -/
def c2input : List Char := "//\n//a\n//b\n//\n//\n//c\n//d\n//\ntail".data

/-- The text after the leading four-line block of `c2input`. -/
def c2body : List Char := "//\n//c\n//d\n//\ntail".data

/-- A source file with a matching leading block and a pattern-free body. -/
def c2cleanInput : List Char := "//\n//x\n//y\n//\nbody\n".data

/-- A documentation file already carrying an older creation date. -/
def c3input : List Char :=
  "# T\n\nFirst created: 1 January 2020\nLast updated: 2 January 2020\n\n## S\nbody".data

/-- The documentation example input of the specification. -/
def c4input : List Char := "# Title\nSome intro.\n\n## Section\nBody".data

/-- The source example input of the specification: an unmatched old header. -/
def c5input : List Char := "// old header\nfoo()".data

/-- A file of an untracked extension. -/
def sampleTxtFile : PyFile :=
  ⟨["notes.txt".data], "hello".data, false, false⟩

/-- A healthy source file. -/
def sampleSwiftFile : PyFile :=
  ⟨["rBUM".data, "A.swift".data], "//x\n".data, false, false⟩

/-- A source file whose read raises an I/O error. -/
def sampleBadFile : PyFile :=
  ⟨["rBUM".data, "B.swift".data], "y".data, true, false⟩

/-- A source file under a hidden directory. -/
def sampleHiddenFile : PyFile :=
  ⟨[".build".data, "C.swift".data], "z".data, false, false⟩

/-- A healthy documentation file. -/
def sampleMdFile : PyFile :=
  ⟨["docs".data, "D.md".data], "# T\nhi".data, false, false⟩

/-- A small project tree. -/
def sampleTree : List PyFile :=
  [sampleSwiftFile, sampleHiddenFile, sampleMdFile]

/-! ### Helper lemmas -/

lemma pyfile_content_eta (f : PyFile) : { f with content := f.content } = f := by
  cases f
  rfl

lemma subAllF_succ_cons (repl : List Char) (n : Nat) (c : Char) (cs : List Char) :
    subAllF repl (n + 1) (c :: cs) =
      match matchHeaderAt (c :: cs) with
      | some r => repl ++ subAllF repl n r
      | none => c :: subAllF repl n cs := rfl

lemma update_swift_file_of_match (d fn content rest : List Char)
    (h : matchHeaderAt content = some rest) :
    ∃ n, update_swift_file d fn content =
      renderSwiftHeader d fn content ++
        subAllF (renderSwiftHeader d fn content) n rest := by
  cases content with
  | nil => simp [matchHeaderAt] at h
  | cons c cs =>
    refine ⟨cs.length, ?_⟩
    simp only [update_swift_file, h, subAll, List.length_cons, subAllF_succ_cons]

lemma subAllF_of_no_match (repl : List Char) :
    ∀ s : List Char, hasHeaderMatch s = false → ∀ n, subAllF repl n s = s := by
  intro s
  induction s with
  | nil =>
    intro _ n
    cases n <;> rfl
  | cons c cs ih =>
    intro h n
    simp only [hasHeaderMatch, Bool.or_eq_false_iff] at h
    have hm : matchHeaderAt (c :: cs) = none := by
      cases hx : matchHeaderAt (c :: cs) with
      | none => rfl
      | some r => rw [hx] at h; simp at h
    cases n with
    | zero => rfl
    | succ n => rw [subAllF_succ_cons, hm, ih h.2 n]

lemma swiftHeaderLeadsOutput (d fn content : List Char) :
    renderSwiftHeader d fn content <+: update_swift_file d fn content := by
  cases h : matchHeaderAt content with
  | none =>
    simp only [update_swift_file, h]
    exact List.prefix_append _ _
  | some rest =>
    obtain ⟨n, hn⟩ := update_swift_file_of_match d fn content rest h
    rw [hn]
    exact List.prefix_append _ _

/-! ### Claims -/

/-- C1: the stamper is not idempotent.  Re-running the source renderer on
its own output (same current date) changes the content again: the four-line
pattern matches the first four lines of the seven-line header written by
the first run, and the global substitution leaves the old date lines
dangling below the fresh header. -/
theorem c1_stamper_not_idempotent :
    update_swift_file sampleDate sampleName
        (update_swift_file sampleDate sampleName c1input) ≠
      update_swift_file sampleDate sampleName c1input := by decide

/-- C2 (counterexample): for a source file whose body contains a second
occurrence of the four-line pattern, the output is not the new header
followed by the unchanged text after the leading block — `re.sub`
rewrites the body occurrence as well. -/
theorem c2_counterexample :
    matchHeaderAt c2input = some c2body ∧
    update_swift_file sampleDate sampleName c2input ≠
      renderSwiftHeader sampleDate sampleName c2input ++ c2body := by decide

/-- C2 (amended): the prepend path leaves the original content an exact
suffix, and on the replacement path the text after the detected leading
block is unchanged provided it contains no further occurrence of the
four-line pattern. -/
theorem c2_swift_body_preserved (d fn content : List Char) :
    (matchHeaderAt content = none →
      update_swift_file d fn content = renderSwiftHeader d fn content ++ content) ∧
    (∀ rest, matchHeaderAt content = some rest → hasHeaderMatch rest = false →
      update_swift_file d fn content = renderSwiftHeader d fn content ++ rest) := by
  constructor
  · intro h
    simp only [update_swift_file, h]
  · intro rest h hnm
    obtain ⟨n, hn⟩ := update_swift_file_of_match d fn content rest h
    rw [hn, subAllF_of_no_match _ rest hnm n]

/-- Witness for C2 (amended) at a concrete matched input with a clean body. -/
theorem c2_swift_body_preserved_witness :
    matchHeaderAt c2cleanInput = some ("body\n".data) ∧
    hasHeaderMatch ("body\n".data) = false ∧
    update_swift_file sampleDate sampleName c2cleanInput =
      renderSwiftHeader sampleDate sampleName c2cleanInput ++ "body\n".data :=
  ⟨by decide, by decide,
    (c2_swift_body_preserved sampleDate sampleName c2cleanInput).2
      ("body\n".data) (by decide) (by decide)⟩

/-- C5 (counterexample): on the spec's example input the output is indeed
the fresh header block prepended to the unchanged original text, but the
block has seven newline-terminated lines, not six. -/
theorem c5_counterexample :
    update_swift_file sampleDate sampleName c5input =
      renderSwiftHeader sampleDate sampleName c5input ++ c5input ∧
    List.count '\n' (renderSwiftHeader sampleDate sampleName c5input) = 7 ∧
    List.count '\n' (renderSwiftHeader sampleDate sampleName c5input) ≠ 6 := by decide

/-- C5 (amended): for the example input `"// old header\nfoo()"` the
leading lines do not match the four-line pattern, so the output is exactly
the freshly rendered seven-line header block prepended to the unchanged
original text. -/
theorem c5_seven_line_header_prepended (d fn : List Char)
    (hd : '\n' ∉ d) (hf : '\n' ∉ fn) :
    update_swift_file d fn c5input = renderSwiftHeader d fn c5input ++ c5input ∧
    List.count '\n' (renderSwiftHeader d fn c5input) = 7 := by
  constructor
  · simp only [update_swift_file, show matchHeaderAt c5input = none from by decide]
  · simp only [renderSwiftHeader, CREATION_DATE, swift_counter_str, COUNTER_ENABLED,
      if_false, List.count_append, List.count_eq_zero.mpr hd, List.count_eq_zero.mpr hf,
      Bool.false_eq_true]
    decide

/-- Witness for C5 (amended) at the sample date and file name. -/
theorem c5_seven_line_header_prepended_witness :
    '\n' ∉ sampleDate ∧ '\n' ∉ sampleName ∧
    (update_swift_file sampleDate sampleName c5input =
       renderSwiftHeader sampleDate sampleName c5input ++ c5input ∧
     List.count '\n' (renderSwiftHeader sampleDate sampleName c5input) = 7) :=
  ⟨by decide, by decide,
    c5_seven_line_header_prepended sampleDate sampleName (by decide) (by decide)⟩

/-- C10: for every input content, the source renderer's output begins with
the freshly rendered header block as an exact prefix, on both the
replacement path and the prepend path. -/
theorem c10_header_is_prefix (d fn content : List Char) :
    renderSwiftHeader d fn content <+: update_swift_file d fn content :=
  swiftHeaderLeadsOutput d fn content

lemma infix_append_left (x : List Char) {l y : List Char} (h : l <:+: y) :
    l <:+: x ++ y := by
  obtain ⟨s, t, rfl⟩ := h
  exact ⟨x ++ s, t, by simp [List.append_assoc]⟩

lemma infix_append_right (y : List Char) {l x : List Char} (h : l <:+: x) :
    l <:+: x ++ y := by
  obtain ⟨s, t, rfl⟩ := h
  exact ⟨s, t ++ y, by simp [List.append_assoc]⟩

lemma creation_infix_swift (d fn content : List Char) :
    "First created: 6 February 2025".data <:+: renderSwiftHeader d fn content := by
  unfold renderSwiftHeader
  apply infix_append_right
  apply infix_append_right
  apply infix_append_right
  apply infix_append_right
  apply infix_append_right
  rw [List.append_assoc,
    show ("\n//  rBUM\n//\n//  First created: ".data ++ CREATION_DATE : List Char) =
      "\n//  rBUM\n//\n//  ".data ++ "First created: 6 February 2025".data from rfl,
    ← List.append_assoc]
  exact (List.suffix_append _ _).isInfix

lemma dateSection_eq (d content : List Char) :
    dateSection d content =
      "First created: 6 February 2025".data ++ "\nLast updated: ".data ++ d ++
        "\n".data ++ md_counter_str content ++ "\n".data := rfl

lemma update_markdown_file_structure (d fn content : List Char) :
    ∃ A B, update_markdown_file d fn content = A ++ dateSection d content ++ B := by
  simp only [update_markdown_file]
  split
  · exact ⟨_, _, rfl⟩
  · exact ⟨_, _, rfl⟩

set_option maxRecDepth 10000 in
/-- C3 (counterexample): a documentation file already carrying the creation
date `1 January 2020` has that date erased by a re-run — the renderer
records the constant `CREATION_DATE` instead. -/
theorem c3_counterexample :
    ("First created: 1 January 2020".data <:+: c3input) ∧
    ¬ ("First created: 1 January 2020".data <:+:
        update_markdown_file sampleDate sampleName c3input) := by decide

/-- C3 (amended): every run records the constant creation date
`6 February 2025` in its output, for both renderers and every input; hence
re-running never changes the creation date of a file whose recorded
creation date is already that constant, while a file carrying any other
creation date has it rewritten to the constant. -/
theorem c3_creation_date_is_constant (d fn content : List Char) :
    ("First created: 6 February 2025".data <:+: update_swift_file d fn content) ∧
    ("First created: 6 February 2025".data <:+: update_markdown_file d fn content) := by
  constructor
  · exact (creation_infix_swift d fn content).trans
      (swiftHeaderLeadsOutput d fn content).isInfix
  · obtain ⟨A, B, hAB⟩ := update_markdown_file_structure d fn content
    rw [hAB]
    apply infix_append_right
    apply infix_append_left
    rw [dateSection_eq]
    apply infix_append_right
    apply infix_append_right
    apply infix_append_right
    apply infix_append_right
    apply infix_append_right
    exact List.infix_rfl

set_option maxRecDepth 10000 in
/-- C4: evaluating the documentation renderer at the spec's example input.
The description scan continues through the blank line and absorbs
`## Section` and `Body` into the retained block, so the date lines are
appended at the very end, after `Body` — not immediately before
`## Section` as the claim states. -/
theorem c4_dates_appended_after_body :
    update_markdown_file sampleDate sampleName c4input =
      ("# Title\nSome intro.\n\n## Section\nBody\n\nFirst created: 6 February 2025\nLast updated: 7 October 2025\n\n").data ∧
    update_markdown_file sampleDate sampleName c4input ≠
      ("# Title\nSome intro.\n\nFirst created: 6 February 2025\nLast updated: 7 October 2025\n\n## Section\nBody").data := by
  decide

set_option maxRecDepth 10000 in
/-- C6: with the counter feature flag disabled, `get_update_count` returns
`None` for every input content, both renderers' `counter_str` is empty, and
no rendered header or date section contains an `Update count:` line. -/
theorem c6_counter_suppressed (content : List Char) :
    get_update_count content = none ∧
    swift_counter_str content = [] ∧
    md_counter_str content = [] ∧
    ¬ ("Update count:".data <:+: renderSwiftHeader sampleDate sampleName content) ∧
    ¬ ("Update count:".data <:+: dateSection sampleDate content) := by
  refine ⟨rfl, rfl, rfl, ?_, ?_⟩
  · rw [show renderSwiftHeader sampleDate sampleName content =
        renderSwiftHeader sampleDate sampleName [] from rfl]
    decide
  · rw [show dateSection sampleDate content = dateSection sampleDate [] from rfl]
    decide

/-- Witness for C6 at a content that itself contains a counter marker. -/
theorem c6_counter_suppressed_witness :
    get_update_count ("Update count: 3".data) = none ∧
    swift_counter_str ("Update count: 3".data) = [] ∧
    md_counter_str ("Update count: 3".data) = [] ∧
    ¬ ("Update count:".data <:+:
        renderSwiftHeader sampleDate sampleName ("Update count: 3".data)) ∧
    ¬ ("Update count:".data <:+: dateSection sampleDate ("Update count: 3".data)) :=
  c6_counter_suppressed ("Update count: 3".data)


lemma pyfile_eta_of_read (f : PyFile) (hr : f.readFails = false) :
    f = ⟨f.parts, f.content, false, f.writeFails⟩ := by
  cases f
  simp_all

lemma process_file_of_fileFails_false (d : List Char) (f : PyFile)
    (h : fileFails d f = false) :
    process_file d f =
      .ok ({ f with content := newContentFor d f },
        if newContentFor d f = f.content then none else some f.parts) := by
  rw [fileFails, Bool.or_eq_false_iff] at h
  obtain ⟨hr, hw⟩ := h
  by_cases hs1 : fileSuffix f = ".swift".data
  · have hn : newContentFor d f = update_swift_file d (fileName f) f.content := by
      simp [newContentFor, hs1]
    by_cases hc : update_swift_file d (fileName f) f.content = f.content
    · simp [process_file, hr, hs1, hc, hn, pyfile_content_eta]
      exact pyfile_eta_of_read f hr
    · have hwf : f.writeFails = false := by
        rw [hn] at hw
        rwa [if_neg hc] at hw
      simp [process_file, hr, hs1, hc, hn, hwf]
  · by_cases hs2 : fileSuffix f = ".md".data
    · have hn : newContentFor d f = update_markdown_file d (fileName f) f.content := by
        simp [newContentFor, hs1, hs2]
      by_cases hc : update_markdown_file d (fileName f) f.content = f.content
      · simp [process_file, hr, hs1, hs2, hc, hn, pyfile_content_eta]
        exact pyfile_eta_of_read f hr
      · have hwf : f.writeFails = false := by
          rw [hn] at hw
          rwa [if_neg hc] at hw
        simp [process_file, hr, hs1, hs2, hc, hn, hwf]
    · have hn : newContentFor d f = f.content := by
        simp [newContentFor, hs1, hs2]
      simp [process_file, hr, hs1, hs2, hn, pyfile_content_eta]
      exact pyfile_eta_of_read f hr

lemma process_file_of_fileFails_true (d : List Char) (f : PyFile)
    (h : fileFails d f = true) :
    process_file d f = .error () := by
  by_cases hr : f.readFails = true
  · simp [process_file, hr]
  · have hrf : f.readFails = false := by
      revert hr
      cases f.readFails <;> simp
    have hi : (if newContentFor d f = f.content then false else f.writeFails) = true := by
      rw [fileFails, hrf] at h
      simpa using h
    have hc : ¬ (newContentFor d f = f.content) := by
      intro hceq
      rw [if_pos hceq] at hi
      exact Bool.false_ne_true hi
    have hwf : f.writeFails = true := by rwa [if_neg hc] at hi
    by_cases hs1 : fileSuffix f = ".swift".data
    · have hcc : update_swift_file d (fileName f) f.content ≠ f.content := by
        intro hx
        exact hc (by simp [newContentFor, hs1, hx])
      simp [process_file, hrf, hs1, hcc, hwf]
    · by_cases hs2 : fileSuffix f = ".md".data
      · have hcc : update_markdown_file d (fileName f) f.content ≠ f.content := by
          intro hx
          exact hc (by simp [newContentFor, hs1, hs2, hx])
        simp [process_file, hrf, hs1, hs2, hcc, hwf]
      · exact absurd (by simp [newContentFor, hs1, hs2]) hc

lemma runStamper_exclusion (d : List Char) (files : List PyFile) :
    (∀ p ∈ (runStamper d files).opened, pathExcluded p = false) ∧
    List.Forall₂ (fun a b => pathExcluded a.parts = true → b = a)
      files (runStamper d files).files := by
  induction files with
  | nil =>
    constructor
    · intro p hp
      simp [runStamper] at hp
    · exact List.Forall₂.nil
  | cons f rest ih =>
    by_cases hpe : pathExcluded f.parts = true
    · constructor
      · intro p hp
        simp only [runStamper, hpe, if_true] at hp
        exact ih.1 p hp
      · simp only [runStamper, hpe, if_true]
        exact List.Forall₂.cons (fun _ => rfl) ih.2
    · have hpf : pathExcluded f.parts = false := by
        revert hpe
        cases pathExcluded f.parts <;> simp
      cases hpr : process_file d f with
      | error e =>
        constructor
        · intro p hp
          simp only [runStamper, hpf, Bool.false_eq_true, if_false, hpr,
            List.mem_singleton] at hp
          rw [hp]
          exact hpf
        · simp only [runStamper, hpf, Bool.false_eq_true, if_false, hpr]
          exact List.forall₂_same.mpr (fun x _ => fun _ => rfl)
      | ok gn =>
        constructor
        · intro p hp
          simp only [runStamper, hpf, Bool.false_eq_true, if_false, hpr,
            List.mem_cons] at hp
          rcases hp with hp | hp
          · rw [hp]
            exact hpf
          · exact ih.1 p hp
        · simp only [runStamper, hpf, Bool.false_eq_true, if_false, hpr]
          refine List.Forall₂.cons ?_ ih.2
          intro hx
          rw [hx] at hpf
          exact absurd hpf (by simp)

/-- C7: during a run, no path containing a hidden segment or a
`build`/`Pods`/`Carthage` component is ever handed to `process_file`
(hence never opened), and every such file in the enumeration is left
untouched in the final state. -/
theorem c7_excluded_paths_never_opened (d : List Char) (tree : List PyFile) :
    (∀ p ∈ (mainRun d tree).opened, pathExcluded p = false) ∧
    List.Forall₂ (fun a b => pathExcluded a.parts = true → b = a)
      (mainOrder tree) (mainRun d tree).files :=
  runStamper_exclusion d (mainOrder tree)

/-- Witness for C7: a concrete hidden-directory file is never opened. -/
theorem c7_excluded_paths_never_opened_witness :
    pathExcluded sampleHiddenFile.parts = true ∧
    sampleHiddenFile.parts ∉ (mainRun sampleDate sampleTree).opened :=
  ⟨by decide, fun hm =>
    absurd ((c7_excluded_paths_never_opened sampleDate sampleTree).1 _ hm)
      (by decide)⟩

/-- C8: with read and write succeeding, `process_file` returns the file
with the rendered content and emits a notice naming the file exactly when
the rendered content differs from the original (it writes back only on
change); a file of an untracked extension is returned completely untouched
with no output. -/
theorem c8_process_file_contract (d : List Char) (f : PyFile)
    (hr : f.readFails = false) (hw : f.writeFails = false) :
    process_file d f =
      .ok ({ f with content := newContentFor d f },
        if newContentFor d f = f.content then none else some f.parts) ∧
    (fileSuffix f ≠ ".swift".data → fileSuffix f ≠ ".md".data →
      process_file d f = .ok (f, none) ∧ newContentFor d f = f.content) := by
  have hff : fileFails d f = false := by
    rw [fileFails, hr]
    simp [hw]
  refine ⟨process_file_of_fileFails_false d f hff, fun hs1 hs2 => ?_⟩
  have hnc : newContentFor d f = f.content := by
    simp [newContentFor, hs1, hs2]
  refine ⟨?_, hnc⟩
  rw [process_file_of_fileFails_false d f hff, hnc, if_pos rfl, pyfile_content_eta]

/-- Witness for C8 at a concrete untracked file. -/
theorem c8_process_file_contract_witness :
    sampleTxtFile.readFails = false ∧ sampleTxtFile.writeFails = false ∧
    (process_file sampleDate sampleTxtFile =
        .ok ({ sampleTxtFile with content := newContentFor sampleDate sampleTxtFile },
          if newContentFor sampleDate sampleTxtFile = sampleTxtFile.content then none
          else some sampleTxtFile.parts) ∧
      (fileSuffix sampleTxtFile ≠ ".swift".data → fileSuffix sampleTxtFile ≠ ".md".data →
        process_file sampleDate sampleTxtFile = .ok (sampleTxtFile, none) ∧
        newContentFor sampleDate sampleTxtFile = sampleTxtFile.content)) :=
  ⟨rfl, rfl, c8_process_file_contract sampleDate sampleTxtFile rfl rfl⟩

/-- C9: an uncaught read or write failure on one file aborts the run at
that point: every non-skipped file before the failing one carries its
rendered content in the final state, and the failing file together with
every file after it is untouched. -/
theorem c9_failure_aborts_run (d : List Char) (pre : List PyFile) (bad : PyFile)
    (post : List PyFile)
    (h1 : ∀ f ∈ pre, pathExcluded f.parts = true ∨ fileFails d f = false)
    (h2 : pathExcluded bad.parts = false)
    (h3 : fileFails d bad = true) :
    (runStamper d (pre ++ bad :: post)).files = pre.map (procOne d) ++ bad :: post ∧
    (runStamper d (pre ++ bad :: post)).aborted = true := by
  induction pre with
  | nil =>
    simp only [List.nil_append, List.map_nil]
    rw [runStamper]
    simp [h2, process_file_of_fileFails_true d bad h3]
  | cons f pre ih =>
    have IH := ih (fun g hg => h1 g (List.mem_cons_of_mem f hg))
    by_cases hpe : pathExcluded f.parts = true
    · constructor
      · simp [runStamper, hpe, procOne, IH.1]
      · simp [runStamper, hpe, IH.2]
    · have hpf : pathExcluded f.parts = false := by
        revert hpe
        cases pathExcluded f.parts <;> simp
      have hok : fileFails d f = false := by
        rcases h1 f (List.mem_cons_self f pre) with hx | hx
        · rw [hx] at hpf
          exact absurd hpf (by simp)
        · exact hx
      have hpr := process_file_of_fileFails_false d f hok
      constructor
      · simp [runStamper, hpf, hpr, procOne, IH.1]
      · simp [runStamper, hpf, hpr, IH.2]

/-- Witness for C9: a run over a healthy source file, a file whose read
raises, and a trailing documentation file. -/
theorem c9_failure_aborts_run_witness :
    (∀ f ∈ [sampleSwiftFile],
      pathExcluded f.parts = true ∨ fileFails sampleDate f = false) ∧
    pathExcluded sampleBadFile.parts = false ∧
    fileFails sampleDate sampleBadFile = true ∧
    ((runStamper sampleDate ([sampleSwiftFile] ++ sampleBadFile :: [sampleMdFile])).files =
        [sampleSwiftFile].map (procOne sampleDate) ++ sampleBadFile :: [sampleMdFile] ∧
      (runStamper sampleDate
          ([sampleSwiftFile] ++ sampleBadFile :: [sampleMdFile])).aborted = true) :=
  ⟨by decide, by decide, by decide,
    c9_failure_aborts_run sampleDate [sampleSwiftFile] sampleBadFile [sampleMdFile]
      (by decide) (by decide) (by decide)⟩
